import Mathlib

/-!
Shallow embedding of `backup.py` (pipeline/task orchestration engine).

The program shells out to external tools (mysqldump, mysql, gzip, bzip2,
gpg, tar) and to an object store.  Each tool invocation is modelled by a
`ProcOutcome` supplied by a `World`: the binary may be absent — in Python,
`subprocess.run` then raises `FileNotFoundError` before anything executes —
or the tool runs and exits with a code.  Per the collaborator contracts, a
tool that exits non-zero has not produced its output artifact, and a tool
that exits zero has.  The mutable facts the program can observe or change
(local files, the process environment, the remote store, the log, the list
of executed tool invocations) are collected in `SysState`, threaded through
every function; Python exceptions are an `Except PyExn` result.
-/

set_option maxHeartbeats 1000000

namespace BackupPy

/-- Python exceptions distinguished by the error handling in backup.py:
`subprocess.CalledProcessError` (raised by `check=True` on non-zero exit and
caught at compress/encrypt stage boundaries) and `FileNotFoundError` (raised
by `subprocess.run` itself when the tool binary is absent; caught nowhere
except by the catch-all in the upload stage). -/
inductive PyExn
  | fileNotFoundError
  | calledProcessError
deriving DecidableEq

/-- Outcome of one `subprocess.run` call. -/
inductive ProcOutcome
  | missing
  | exited (code : Nat) (stdout : String) (stderr : String)
deriving DecidableEq

/-- Decidable equality for `Except` results, used to evaluate the model on
concrete inputs. -/
instance {ε α : Type} [DecidableEq ε] [DecidableEq α] : DecidableEq (Except ε α)
  | .error e, .error f =>
    if h : e = f then isTrue (h ▸ rfl)
    else isFalse (fun hh => h (by cases hh; rfl))
  | .error _, .ok _ => isFalse (fun hh => Except.noConfusion hh)
  | .ok _, .error _ => isFalse (fun hh => Except.noConfusion hh)
  | .ok a, .ok b =>
    if h : a = b then isTrue (h ▸ rfl)
    else isFalse (fun hh => h (by cases hh; rfl))

/-- Process environments (os.environ and the `env=` argument) as
association lists. -/
abbrev Env := List (String × String)

/-- Dict-style assignment `env[k] = v`. -/
def envSet (e : Env) (k v : String) : Env :=
  (k, v) :: e.filter (fun kv => kv.1 != k)

/-- str(Path(s)) for the strings backup.py builds paths from: pathlib maps
the empty string to the current-directory path ".".  Other pathlib
normalisations (trailing slashes, duplicate separators) are not exercised
by the program and are not modelled. -/
def pathOfString (s : String) : String := if s = "" then "." else s

/-- The pathlib `/` operator rendered as a string: joining a name onto "."
yields the bare name (a path relative to the current working directory). -/
def pathJoin (d f : String) : String := if d = "." then f else d ++ "/" ++ f

/-- Splitting a character list on a separator; the result is always
non-empty and a final separator yields a trailing empty piece. -/
def splitChar (sep : Char) : List Char → List (List Char)
  | [] => [[]]
  | c :: cs =>
    let r := splitChar sep cs
    if c == sep then [] :: r else (c :: r.headD []) :: r.tail

/-- Splitting a string on a separator character. -/
def splitOnChar (sep : Char) (s : String) : List String :=
  (splitChar sep s.data).map String.mk

/-- Path.name: the final path component. -/
def fileName (p : String) : String := (splitOnChar '/' p).getLastD p

/-- Joining path components back with slashes. -/
def joinSlash : List String → String
  | [] => ""
  | [x] => x
  | x :: xs => x ++ "/" ++ joinSlash xs

/-- Path.parent rendered as a string, as used on the tar command line. -/
def pathParent (p : String) : String :=
  let parts := splitOnChar '/' p
  if parts.length ≤ 1 then "." else joinSlash parts.dropLast

/-- Python str.strip("/"): remove leading and trailing slash characters. -/
def stripSlashes (s : String) : String :=
  let l := s.data.dropWhile (fun c => c == '/')
  String.mk ((l.reverse.dropWhile (fun c => c == '/')).reverse)

/-- Python truthiness of an optional string (a dict.get result): None and
the empty string are falsy. -/
def truthyStr : Option String → Bool
  | none => false
  | some s => s != ""

/-- Python str(x) of an optional value as it appears in log messages. -/
def showOpt : Option String → String
  | none => "None"
  | some s => s

/-- Which external tool one recorded invocation ran, with its key argument. -/
inductive InvKind
  | dump (db : String)
  | listDbs
  | gzip (p : String)
  | bzip2 (p : String)
  | gpg (p : String)
  | tar (archive : String)
deriving DecidableEq

/-- One executed tool invocation: its kind, its argv, and the environment
the child process received (for `env=None` this is the inherited copy of
the global process environment). -/
structure Invocation where
  kind : InvKind
  cmd : List String
  env : Env
deriving DecidableEq

/-- The observable system state threaded through the program: the set of
local files present, the global process environment, the remote store
contents as (bucket, key) pairs, the log lines (most recent first), and
the executed tool invocations (most recent first). -/
structure SysState where
  fs : List String
  env : Env
  remote : List (String × String)
  logs : List String
  invocations : List Invocation
deriving DecidableEq

/-- Creating (or truncating) a local file. -/
def SysState.addFile (st : SysState) (p : String) : SysState :=
  if p ∈ st.fs then st else { st with fs := p :: st.fs }

/-- Path.unlink: removing a local file. -/
def SysState.rmFile (st : SysState) (p : String) : SysState :=
  { st with fs := st.fs.filter (fun q => q != p) }

/-- The log collaborator (print). -/
def SysState.log (st : SysState) (m : String) : SysState :=
  { st with logs := m :: st.logs }

/-- Recording one executed tool invocation. -/
def SysState.record (st : SysState) (i : Invocation) : SysState :=
  { st with invocations := i :: st.invocations }

/-- A successful object-store upload adds a (bucket, key) pair. -/
def SysState.putRemote (st : SysState) (b k : String) : SysState :=
  { st with remote := (b, k) :: st.remote }

/-- Behaviour of the external collaborators: the outcome of each tool
invocation (keyed by the database name, the source instance name, or the
file path it operates on), whether an object-store upload succeeds, and
which paths are directories. -/
structure World where
  dump : String → ProcOutcome
  showDatabases : String → ProcOutcome
  gzip : String → ProcOutcome
  bzip2 : String → ProcOutcome
  gpg : String → ProcOutcome
  s3Upload : String → Bool
  tar : String → ProcOutcome
  isDir : String → Bool

/-- Compressor.compress.  `gzip file` / `bzip2 file` replace the file in
place on success; `with_suffix(suffix + ext)` appends the extension to the
name.  `check=True` turns a non-zero exit into CalledProcessError, caught
here; an absent binary raises FileNotFoundError, which is not caught. -/
def Compressor.compress (w : World) (st : SysState) (filePath method : String) :
    SysState × Except PyExn (Option String) :=
  if method = "gzip" then
    match w.gzip filePath with
    | .missing => (st, .error .fileNotFoundError)
    | .exited code _ err =>
      let st := st.record ⟨.gzip filePath, ["gzip", filePath], st.env⟩
      if code = 0 then
        let newPath := filePath ++ ".gz"
        let st := (st.rmFile filePath).addFile newPath
        (st.log ("COMPRESSED " ++ fileName filePath ++ " -> " ++ fileName newPath),
         .ok (some newPath))
      else
        (st.log ("ERROR, compressing file " ++ fileName filePath ++ ": " ++ err), .ok none)
  else if method = "bzip2" then
    match w.bzip2 filePath with
    | .missing => (st, .error .fileNotFoundError)
    | .exited code _ err =>
      let st := st.record ⟨.bzip2 filePath, ["bzip2", filePath], st.env⟩
      if code = 0 then
        let newPath := filePath ++ ".bz2"
        let st := (st.rmFile filePath).addFile newPath
        (st.log ("COMPRESSED " ++ fileName filePath ++ " -> " ++ fileName newPath),
         .ok (some newPath))
      else
        (st.log ("ERROR, compressing file " ++ fileName filePath ++ ": " ++ err), .ok none)
  else
    (st.log ("ERROR, not supported: " ++ method), .ok none)

/-- One named encryption profile (an entry of the `encryptions` mapping). -/
structure EncryptionCfg where
  method : Option String := none
  recipient : String := ""
deriving DecidableEq

/-- Encryptor.encrypt.  gpg writes `--output <file>.gpg` and leaves its
input in place; non-zero exit (CalledProcessError) is caught and, per the
collaborator contract, leaves no output file. -/
def Encryptor.encrypt (w : World) (st : SysState) (filePath : String)
    (enc : EncryptionCfg) : SysState × Except PyExn (Option String) :=
  if enc.method = some "gpg" then
    let encryptedPath := filePath ++ ".gpg"
    match w.gpg filePath with
    | .missing => (st, .error .fileNotFoundError)
    | .exited code _ _ =>
      let st := st.record ⟨.gpg filePath,
        ["gpg", "--batch", "--yes", "--output", encryptedPath,
         "--encrypt", "--recipient", enc.recipient, filePath], st.env⟩
      if code = 0 then
        ((st.addFile encryptedPath).log
           ("ENCRYPTED " ++ fileName filePath ++ " -> " ++ fileName encryptedPath),
         .ok (some encryptedPath))
      else
        (st.log ("ERROR encrypting file " ++ fileName filePath), .ok none)
  else
    (st.log ("ERROR, not supported: " ++ showOpt enc.method), .ok none)

/-- One named destination (an entry of the `destinations` mapping). -/
structure DestinationCfg where
  method : Option String := none
  s3Bucket : Option String := none
  keyPfx : Option String := none
  awsAccessKeyId : Option String := none
  awsSecretAccessKey : Option String := none
  awsSessionToken : Option String := none
deriving DecidableEq

/-- Uploader.upload.  The whole body sits under `except Exception`, so no
exception escapes: a missing S3_BUCKET entry (KeyError) and any transport
error become a logged False.  The remote key is the configured prefix,
stripped of slashes, joined to the file name when non-empty. -/
def Uploader.upload (w : World) (st : SysState) (filePath : String)
    (dest : DestinationCfg) : SysState × Bool :=
  if dest.method = some "s3" then
    match dest.s3Bucket with
    | none => (st.log "ERROR uploading: KeyError", false)
    | some bucket =>
      let p := stripSlashes (dest.keyPfx.getD "")
      let key := if p != "" then p ++ "/" ++ fileName filePath else fileName filePath
      if w.s3Upload filePath then
        ((st.putRemote bucket key).log
           ("UPLOADED " ++ fileName filePath ++ " -> s3://" ++ bucket ++ "/" ++ key),
         true)
      else
        (st.log "ERROR uploading", false)
  else
    (st.log ("ERROR, Not supported: " ++ showOpt dest.method), false)

/-- Dict lookup in the `encryptions` / `destinations` mappings. -/
def lookupCfg {α : Type} (l : List (String × α)) (k : String) : Option α :=
  l.lookup k

/-- The missing-temp guard `if not str(temp_dir)` shared by both tasks,
applied to the raw configured value (`cfg.get("temp", "")`). -/
def missingTemp (temp : Option String) : Bool :=
  pathOfString (temp.getD "") == ""

/-- The encryption block shared verbatim by both tasks (lines 181-192 and
283-294): look up the configured profile, run the encrypt stage, and on
success delete the predecessor artifact (guarded by `exists()`) and thread
the encrypted file on.  `.ok none` means the item is skipped (`continue`),
`.ok (some f)` means processing continues with artifact `f`. -/
def encryptStep (w : World) (encryptions : List (String × EncryptionCfg))
    (encKey : Option String) (st : SysState) (file : String) :
    SysState × Except PyExn (Option String) :=
  if truthyStr encKey then
    match lookupCfg encryptions (encKey.getD "") with
    | none => (st.log ("ERROR, encryption not found: " ++ encKey.getD ""), .ok none)
    | some ecfg =>
      match Encryptor.encrypt w st file ecfg with
      | (st, .error e) => (st, .error e)
      | (st, .ok none) => (st, .ok none)
      | (st, .ok (some encFile)) =>
        let st := if file ∈ st.fs then st.rmFile file else st
        (st, .ok (some encFile))
  else (st, .ok (some file))

/-- The destination block shared verbatim by both tasks (lines 194-204 and
296-306): look up the configured destination, upload, and on success delete
the local artifact unless the cleanup flag is false (default true). -/
def uploadStep (w : World) (destinations : List (String × DestinationCfg))
    (destKey : Option String) (cleanup : Option Bool) (st : SysState)
    (file : String) : SysState :=
  if truthyStr destKey then
    match lookupCfg destinations (destKey.getD "") with
    | none => st.log ("ERROR, destination not found: " ++ destKey.getD "")
    | some dcfg =>
      match Uploader.upload w st file dcfg with
      | (st, true) => if cleanup.getD true then st.rmFile file else st
      | (st, false) => st
  else st.log ("INFO, no destination configured for " ++ fileName file)

/-- The optional-stage chain applied to a freshly extracted artifact:
encrypt block then destination block, with `.ok none` from the encrypt
block meaning `continue`. -/
def afterExtract (w : World) (encryptions : List (String × EncryptionCfg))
    (destinations : List (String × DestinationCfg)) (encKey destKey : Option String)
    (cleanup : Option Bool) (st : SysState) (file : String) :
    SysState × Except PyExn Unit :=
  match encryptStep w encryptions encKey st file with
  | (st, .error e) => (st, .error e)
  | (st, .ok none) => (st, .ok ())
  | (st, .ok (some f)) => (uploadStep w destinations destKey cleanup st f, .ok ())

/-- One configured instance of the mysqldump source type. -/
structure MySQLCfg where
  temp : Option String := none
  allDatabasesExceptSystem : Bool := false
  databases : Option (List String) := none
  excludeDatabases : Option (List String) := none
  compress : Option String := none
  encryption : Option String := none
  destination : Option String := none
  cleanup : Option Bool := none
  host : Option String := none
  port : Option String := none
  user : Option String := none
  password : Option String := none
  extraArgs : List String := []
deriving DecidableEq

/-- The built-in exclusion list self.system_databases. -/
def systemDatabases : List String :=
  ["mysql", "information_schema", "performance_schema", "sys"]

/-- MySQLDumpTask._mysql_args. -/
def mysqlArgs (cfg : MySQLCfg) : List String :=
  (if truthyStr cfg.host then ["-h", cfg.host.getD ""] else []) ++
  (if truthyStr cfg.port then ["-P", cfg.port.getD ""] else []) ++
  (if truthyStr cfg.user then ["-u", cfg.user.getD ""] else []) ++
  cfg.extraArgs

/-- MySQLDumpTask._mysqldump_cmd. -/
def mysqldumpCmd (cfg : MySQLCfg) (db : String) : List String :=
  ["mysqldump"] ++ mysqlArgs cfg ++ [db]

/-- MySQLDumpTask._mysql_env: a copy of the global environment, extended
with MYSQL_PWD when a (truthy) password is configured.  The global
environment itself is not assigned to. -/
def mysqlEnv (globalEnv : Env) (cfg : MySQLCfg) : Env :=
  if truthyStr cfg.password then envSet globalEnv "MYSQL_PWD" (cfg.password.getD "")
  else globalEnv

/-- Python str.strip() whitespace, as relevant to mysql output lines. -/
def pyIsSpace (c : Char) : Bool :=
  c == ' ' || c == '\t' || c == '\r' || c == '\n'

/-- Python line.strip(). -/
def pyStrip (s : String) : String :=
  let l := s.data.dropWhile pyIsSpace
  String.mk ((l.reverse.dropWhile pyIsSpace).reverse)

/-- The line filter inside MySQLDumpTask._list_databases: split the tool
output into lines, strip each line, drop empty names and names in the
exclusion set.  A trailing newline yields one extra empty piece relative
to str.splitlines, which the emptiness filter drops. -/
def filterDbLines (out : String) (exclude : List String) : List String :=
  ((splitOnChar '\n' out).map pyStrip).filter
    (fun n => n != "" && !(exclude.contains n))

/-- MySQLDumpTask._list_databases.  An absent mysql binary raises
FileNotFoundError (no `try` here); non-zero exit logs and yields []. -/
def listDatabases (w : World) (st : SysState) (instName : String)
    (cfg : MySQLCfg) (exclude : List String) :
    SysState × Except PyExn (List String) :=
  let cmd := ["mysql"] ++ mysqlArgs cfg ++ ["-N", "-e", "SHOW DATABASES"]
  match w.showDatabases instName with
  | .missing => (st, .error .fileNotFoundError)
  | .exited code out err =>
    let st := st.record ⟨.listDbs, cmd, mysqlEnv st.env cfg⟩
    if code = 0 then (st, .ok (filterDbLines out exclude))
    else (st.log ("ERROR listing databases: " ++ err), .ok [])

/-- The per-database body of MySQLDumpTask.run (lines 161-204):
`open(dump_file, "wb")` creates the dump file up front; an absent
mysqldump binary then raises FileNotFoundError; non-zero exit logs and
continues; then the compress block and the shared stage chain run. -/
def MySQLDumpTask.processDb (w : World) (encryptions : List (String × EncryptionCfg))
    (destinations : List (String × DestinationCfg)) (ts : String) (cfg : MySQLCfg)
    (tempDir : String) (st : SysState) (db : String) :
    SysState × Except PyExn Unit :=
  let dumpFile := pathJoin tempDir (db ++ "_" ++ ts ++ ".sql")
  let st := st.addFile dumpFile
  match w.dump db with
  | .missing => (st, .error .fileNotFoundError)
  | .exited code _ err =>
    let st := st.record ⟨.dump db, mysqldumpCmd cfg db, mysqlEnv st.env cfg⟩
    if code ≠ 0 then
      (st.log ("Error dumping " ++ db ++ ": " ++ err), .ok ())
    else
      let st := st.log ("DUMPED " ++ db ++ " -> " ++ dumpFile)
      if truthyStr cfg.compress then
        match Compressor.compress w st dumpFile (cfg.compress.getD "") with
        | (st, .error e) => (st, .error e)
        | (st, .ok none) => (st, .ok ())
        | (st, .ok (some f)) =>
          afterExtract w encryptions destinations cfg.encryption cfg.destination
            cfg.cleanup st f
      else
        afterExtract w encryptions destinations cfg.encryption cfg.destination
          cfg.cleanup st dumpFile

/-- The database loop of MySQLDumpTask.run for one instance. -/
def MySQLDumpTask.runDbs (w : World) (encryptions : List (String × EncryptionCfg))
    (destinations : List (String × DestinationCfg)) (ts : String) (cfg : MySQLCfg)
    (tempDir : String) : SysState → List String → SysState × Except PyExn Unit
  | st, [] => (st, .ok ())
  | st, db :: rest =>
    match MySQLDumpTask.processDb w encryptions destinations ts cfg tempDir st db with
    | (st, .error e) => (st, .error e)
    | (st, .ok _) => MySQLDumpTask.runDbs w encryptions destinations ts cfg tempDir st rest

/-- The per-instance body of MySQLDumpTask.run (lines 138-204): the
missing-temp guard, item resolution (explicit list, or dynamic listing
with exclusion when all_databases_except_system is set), the zero-item
error branches, then the database loop.  Directory creation by
`temp_dir.mkdir` is not tracked in the file model. -/
def MySQLDumpTask.runInstance (w : World) (encryptions : List (String × EncryptionCfg))
    (destinations : List (String × DestinationCfg)) (ts : String) (st : SysState)
    (name : String) (cfg : MySQLCfg) : SysState × Except PyExn Unit :=
  let tempDir := pathOfString (cfg.temp.getD "")
  if missingTemp cfg.temp then
    (st.log ("ERROR, missing temp path for source " ++ name), .ok ())
  else if cfg.allDatabasesExceptSystem then
    let ex := cfg.excludeDatabases.getD []
    let exclude := if ex.isEmpty then systemDatabases else ex
    match listDatabases w st name cfg exclude with
    | (st, .error e) => (st, .error e)
    | (st, .ok dbs) =>
      if dbs.isEmpty then
        (st.log ("ERROR, no databases found for source " ++ name), .ok ())
      else
        MySQLDumpTask.runDbs w encryptions destinations ts cfg tempDir st dbs
  else
    let dbs := cfg.databases.getD []
    if dbs.isEmpty then
      (st.log ("ERROR, no databases listed for source " ++ name), .ok ())
    else
      MySQLDumpTask.runDbs w encryptions destinations ts cfg tempDir st dbs

/-- MySQLDumpTask.run: the instance loop. -/
def MySQLDumpTask.run (w : World) (encryptions : List (String × EncryptionCfg))
    (destinations : List (String × DestinationCfg)) (ts : String) :
    SysState → List (String × MySQLCfg) → SysState × Except PyExn Unit
  | st, [] => (st, .ok ())
  | st, (name, cfg) :: rest =>
    match MySQLDumpTask.runInstance w encryptions destinations ts st name cfg with
    | (st, .error e) => (st, .error e)
    | (st, .ok _) => MySQLDumpTask.run w encryptions destinations ts st rest

/-- One configured instance of the directories source type. -/
structure DirCfg where
  path : Option String := none
  temp : Option String := none
  compress : Option String := none
  encryption : Option String := none
  destination : Option String := none
  cleanup : Option Bool := none
  incremental : Bool := false
  incrementalSnapshot : Option String := none
deriving DecidableEq

/-- DirectoryBackupTask._archive_name: only the two supported methods get
their suffix; any other value (including none) yields a plain .tar name. -/
def archiveName (baseName ts : String) (compressMethod : Option String) : String :=
  if compressMethod = some "gzip" then baseName ++ "_" ++ ts ++ ".tar.gz"
  else if compressMethod = some "bzip2" then baseName ++ "_" ++ ts ++ ".tar.bz2"
  else baseName ++ "_" ++ ts ++ ".tar"

/-- DirectoryBackupTask._tar_cmd: the compression flag falls back to plain
`-cf` for any unrecognised method; incremental mode without a (truthy)
snapshot path yields None (the source logs the error there; the model logs
it at the call site in runInstance, the single caller). -/
def tarCmd (cfg : DirCfg) (sourceDir archivePath : String)
    (compressMethod : Option String) : Option (List String) :=
  let flag := if compressMethod = some "gzip" then "-czf"
              else if compressMethod = some "bzip2" then "-cjf"
              else "-cf"
  if cfg.incremental then
    if truthyStr cfg.incrementalSnapshot then
      some (["tar", flag, archivePath,
             "--listed-incremental", pathOfString (cfg.incrementalSnapshot.getD "")]
            ++ ["-C", pathParent sourceDir, fileName sourceDir])
    else none
  else
    some (["tar", flag, archivePath, "-C", pathParent sourceDir, fileName sourceDir])

/-- The per-instance body of DirectoryBackupTask.run (lines 255-306). -/
def DirectoryBackupTask.runInstance (w : World)
    (encryptions : List (String × EncryptionCfg))
    (destinations : List (String × DestinationCfg)) (ts : String) (st : SysState)
    (name : String) (cfg : DirCfg) : SysState × Except PyExn Unit :=
  let sourceDir := pathOfString (cfg.path.getD "")
  if !w.isDir sourceDir then
    (st.log ("ERROR, invalid source path for " ++ name ++ ": " ++ sourceDir), .ok ())
  else if missingTemp cfg.temp then
    (st.log ("ERROR, missing temp path for source " ++ name), .ok ())
  else
    let tempDir := pathOfString (cfg.temp.getD "")
    let aname := archiveName (fileName sourceDir) ts cfg.compress
    let archivePath := pathJoin tempDir aname
    match tarCmd cfg sourceDir archivePath cfg.compress with
    | none => (st.log "ERROR, incremental requires incremental_snapshot", .ok ())
    | some cmd =>
      match w.tar archivePath with
      | .missing => (st, .error .fileNotFoundError)
      | .exited code _ err =>
        let st := st.record ⟨.tar archivePath, cmd, st.env⟩
        if code ≠ 0 then
          (st.log ("ERROR creating archive " ++ aname ++ ": " ++ err), .ok ())
        else
          let st := (st.addFile archivePath).log
            ("ARCHIVED " ++ sourceDir ++ " -> " ++ archivePath)
          afterExtract w encryptions destinations cfg.encryption cfg.destination
            cfg.cleanup st archivePath

/-- DirectoryBackupTask.run: the instance loop. -/
def DirectoryBackupTask.run (w : World)
    (encryptions : List (String × EncryptionCfg))
    (destinations : List (String × DestinationCfg)) (ts : String) :
    SysState → List (String × DirCfg) → SysState × Except PyExn Unit
  | st, [] => (st, .ok ())
  | st, (name, cfg) :: rest =>
    match DirectoryBackupTask.runInstance w encryptions destinations ts st name cfg with
    | (st, .error e) => (st, .error e)
    | (st, .ok _) => DirectoryBackupTask.run w encryptions destinations ts st rest

/-- Does an invocation run the dump tool? -/
def InvKind.isDump : InvKind → Bool
  | .dump _ => true
  | _ => false

/-- Does an invocation run the dump tool or the database-listing tool
(the two invocations that receive the per-invocation mysql environment)? -/
def InvKind.isDumpOrList : InvKind → Bool
  | .dump _ => true
  | .listDbs => true
  | _ => false

/-- Every tool binary the tasks may invoke through subprocess exists (each
invocation runs and reports an exit status instead of raising
FileNotFoundError). -/
def World.noMissingTools (w : World) : Prop :=
  (∀ s, w.dump s ≠ .missing) ∧ (∀ s, w.showDatabases s ≠ .missing) ∧
  (∀ s, w.gzip s ≠ .missing) ∧ (∀ s, w.bzip2 s ≠ .missing) ∧
  (∀ s, w.gpg s ≠ .missing) ∧ (∀ s, w.tar s ≠ .missing)

/-- Modelled from the spec (amended wording for the upload-key claim): the
remote object key is the configured prefix stripped of leading and trailing
slashes, joined to the file name with a single slash when the stripped
prefix is non-empty, else the bare file name. -/
def specRemoteKey (pfx : Option String) (name : String) : String :=
  let s := stripSlashes (pfx.getD "")
  if s = "" then name else s ++ "/" ++ name

/-! Concrete data for evaluating the model. -/

/-- An initial system state: no local files, a one-entry environment. -/
def exSt : SysState := ⟨[], [("PATH", "/usr/bin")], [], [], []⟩

/-- A world in which every tool exists and succeeds; the database listing
prints two system databases. -/
def exWorldOk : World :=
  { dump := fun _ => .exited 0 "" "", showDatabases := fun _ => .exited 0 "mysql\nsys\n" "",
    gzip := fun _ => .exited 0 "" "", bzip2 := fun _ => .exited 0 "" "",
    gpg := fun _ => .exited 0 "" "", s3Upload := fun _ => true,
    tar := fun _ => .exited 0 "" "", isDir := fun _ => true }

/-- A world in which the mysqldump binary is absent. -/
def exWorldNoDump : World := { exWorldOk with dump := fun _ => .missing }

/-- A world in which gpg runs but exits non-zero. -/
def exWorldBadGpg : World := { exWorldOk with gpg := fun _ => .exited 2 "" "bad key" }

/-- A directory instance asking for the unsupported compression method xz. -/
def exDirXz : DirCfg := { path := some "data", temp := some "tmp", compress := some "xz" }

/-- A directory instance with incremental mode on and no snapshot path. -/
def exDirInc : DirCfg := { path := some "data", temp := some "tmp", incremental := true }

/-- A database instance with one explicitly listed database. -/
def exMySQLOne : MySQLCfg := { temp := some "tmp", databases := some ["db"] }

/-- A database instance resolving items dynamically with the built-in
exclusion list. -/
def exMySQLAll : MySQLCfg := { temp := some "tmp", allDatabasesExceptSystem := true }

/-- A database instance with a configured password. -/
def exMySQLPwd : MySQLCfg :=
  { temp := some "tmp", databases := some ["db"], password := some "sec",
    allDatabasesExceptSystem := true }

/-- A gpg encryption profile. -/
def exEnc : EncryptionCfg := { method := some "gpg", recipient := "ops@example.org" }

/-- An encryption profile with an unsupported method. -/
def exEncAes : EncryptionCfg := { method := some "aes", recipient := "ops@example.org" }

/-- The encryption-profile table. -/
def exEncs : List (String × EncryptionCfg) := [("e1", exEnc)]

/-- An s3 destination with a plain prefix. -/
def exDest : DestinationCfg :=
  { method := some "s3", s3Bucket := some "bkt", keyPfx := some "backups" }

/-- An s3 destination whose configured prefix is a single slash. -/
def exDestSlash : DestinationCfg :=
  { method := some "s3", s3Bucket := some "b", keyPfx := some "/" }

/-- The destination table. -/
def exDests : List (String × DestinationCfg) := [("d1", exDest)]

/-! Basic lemmas about the state operations and path helpers. -/

@[simp] lemma SysState.addFile_env (st : SysState) (p : String) : (st.addFile p).env = st.env := by
  unfold SysState.addFile; split <;> rfl

@[simp] lemma SysState.addFile_logs (st : SysState) (p : String) : (st.addFile p).logs = st.logs := by
  unfold SysState.addFile; split <;> rfl

@[simp] lemma SysState.addFile_invocations (st : SysState) (p : String) :
    (st.addFile p).invocations = st.invocations := by
  unfold SysState.addFile; split <;> rfl

@[simp] lemma SysState.addFile_remote (st : SysState) (p : String) :
    (st.addFile p).remote = st.remote := by
  unfold SysState.addFile; split <;> rfl

@[simp] lemma SysState.rmFile_env (st : SysState) (p : String) : (st.rmFile p).env = st.env := rfl

@[simp] lemma SysState.rmFile_logs (st : SysState) (p : String) : (st.rmFile p).logs = st.logs := rfl

@[simp] lemma SysState.rmFile_invocations (st : SysState) (p : String) :
    (st.rmFile p).invocations = st.invocations := rfl

@[simp] lemma SysState.rmFile_remote (st : SysState) (p : String) :
    (st.rmFile p).remote = st.remote := rfl

@[simp] lemma SysState.log_env (st : SysState) (m : String) : (st.log m).env = st.env := rfl

@[simp] lemma SysState.log_fs (st : SysState) (m : String) : (st.log m).fs = st.fs := rfl

@[simp] lemma SysState.log_logs (st : SysState) (m : String) : (st.log m).logs = m :: st.logs := rfl

@[simp] lemma SysState.log_invocations (st : SysState) (m : String) :
    (st.log m).invocations = st.invocations := rfl

@[simp] lemma SysState.log_remote (st : SysState) (m : String) : (st.log m).remote = st.remote := rfl

@[simp] lemma SysState.record_env (st : SysState) (i : Invocation) : (st.record i).env = st.env := rfl

@[simp] lemma SysState.record_fs (st : SysState) (i : Invocation) : (st.record i).fs = st.fs := rfl

@[simp] lemma SysState.record_logs (st : SysState) (i : Invocation) :
    (st.record i).logs = st.logs := rfl

@[simp] lemma SysState.record_invocations (st : SysState) (i : Invocation) :
    (st.record i).invocations = i :: st.invocations := rfl

@[simp] lemma SysState.record_remote (st : SysState) (i : Invocation) :
    (st.record i).remote = st.remote := rfl

@[simp] lemma SysState.putRemote_env (st : SysState) (b k : String) :
    (st.putRemote b k).env = st.env := rfl

@[simp] lemma SysState.putRemote_fs (st : SysState) (b k : String) :
    (st.putRemote b k).fs = st.fs := rfl

@[simp] lemma SysState.putRemote_logs (st : SysState) (b k : String) :
    (st.putRemote b k).logs = st.logs := rfl

@[simp] lemma SysState.putRemote_invocations (st : SysState) (b k : String) :
    (st.putRemote b k).invocations = st.invocations := rfl

@[simp] lemma SysState.putRemote_remote (st : SysState) (b k : String) :
    (st.putRemote b k).remote = (b, k) :: st.remote := rfl

lemma SysState.mem_addFile_self (st : SysState) (p : String) : p ∈ (st.addFile p).fs := by
  unfold SysState.addFile; split
  · assumption
  · exact List.mem_cons_self _ _

lemma SysState.mem_addFile_of_mem (st : SysState) {q : String} (p : String) (h : q ∈ st.fs) :
    q ∈ (st.addFile p).fs := by
  unfold SysState.addFile; split
  · exact h
  · exact List.mem_cons_of_mem _ h

lemma SysState.mem_rmFile (st : SysState) {q p : String} :
    q ∈ (st.rmFile p).fs ↔ q ∈ st.fs ∧ q ≠ p := by
  unfold SysState.rmFile
  simp [List.mem_filter, bne_iff_ne]

lemma pathOfString_ne_empty (s : String) : pathOfString s ≠ "" := by
  unfold pathOfString; split
  · decide
  · assumption

lemma missingTemp_eq_false (t : Option String) : missingTemp t = false := by
  unfold missingTemp
  rw [beq_eq_false_iff_ne]
  exact pathOfString_ne_empty _

lemma append_gpg_ne (f : String) : f ++ ".gpg" ≠ f := by
  intro h
  have hl := congrArg String.length h
  rw [String.length_append] at hl
  have h4 : (".gpg" : String).length = 4 := rfl
  rw [h4] at hl
  omega

/-! Claim theorems. -/

/-- C1, counterexample.  The claim extends the unsupported-method-fails
rule to the directory-archive task, but there an unsupported method (here
xz, with every tool succeeding) is not a failure for the item: the instance
run finishes normally, a plain .tar output file is produced in the temp
directory, and the log shows a successful archive plus the no-destination
notice, with no error. -/
theorem C1_counterexample :
    truthyStr exDirXz.compress = true ∧
    (DirectoryBackupTask.runInstance exWorldOk [] [] "20250101_0000" exSt "docs" exDirXz).2
      = .ok () ∧
    "tmp/data_20250101_0000.tar" ∈
      (DirectoryBackupTask.runInstance exWorldOk [] [] "20250101_0000" exSt "docs" exDirXz).1.fs ∧
    (DirectoryBackupTask.runInstance exWorldOk [] [] "20250101_0000" exSt "docs" exDirXz).1.logs
      = ["INFO, no destination configured for data_20250101_0000.tar",
         "ARCHIVED data -> tmp/data_20250101_0000.tar"] := by
  decide

/-- C1, amended.  For the database-dump compress stage (Compressor.compress),
a method outside the supported set leaves the file system and the executed
invocations untouched, reports a failure (None) and logs the error, so no
output file with a different suffix is produced.  In the directory-archive
task, by contrast, an unsupported method is silently treated as no
compression: the archive name falls back to the plain .tar suffix and the
tar command is built with the plain -cf flag, so an archive is still
produced. -/
theorem C1_amended (w : World) (st : SysState) (p m : String)
    (h1 : m ≠ "gzip") (h2 : m ≠ "bzip2") :
    (Compressor.compress w st p m).1.fs = st.fs ∧
    (Compressor.compress w st p m).1.invocations = st.invocations ∧
    (Compressor.compress w st p m).2 = .ok none ∧
    (Compressor.compress w st p m).1.logs = ("ERROR, not supported: " ++ m) :: st.logs ∧
    (∀ base ts, archiveName base ts (some m) = base ++ "_" ++ ts ++ ".tar") ∧
    (∀ cfg sd ap, cfg.incremental = false →
       tarCmd cfg sd ap (some m) = some ["tar", "-cf", ap, "-C", pathParent sd, fileName sd]) := by
  refine ⟨?_, ?_, ?_, ?_, ?_, ?_⟩
  · simp [Compressor.compress, h1, h2]
  · simp [Compressor.compress, h1, h2]
  · simp [Compressor.compress, h1, h2]
  · simp [Compressor.compress, h1, h2]
  · intro base ts; simp [archiveName, h1, h2]
  · intro cfg sd ap hinc; simp [tarCmd, h1, h2, hinc]

/-- C1, witness: the amended theorem evaluated at the unsupported method
xz on a concrete state. -/
theorem C1_witness :
    (Compressor.compress exWorldOk exSt "tmp/a.sql" "xz").1.fs = exSt.fs ∧
    (Compressor.compress exWorldOk exSt "tmp/a.sql" "xz").2 = .ok none :=
  ⟨(C1_amended exWorldOk exSt "tmp/a.sql" "xz" (by decide) (by decide)).1,
   (C1_amended exWorldOk exSt "tmp/a.sql" "xz" (by decide) (by decide)).2.2.1⟩

/-- C3.  When the configured temp directory is omitted or empty, the
missing-temp guard of both tasks is false (Path of the empty string
stringifies to "."), so the instance is not skipped, and joining an
artifact name onto that temp path yields the bare file name — a path
relative to the current working directory. -/
theorem C3_empty_temp_not_skipped (t : Option String)
    (h : t = none ∨ t = some "") :
    missingTemp t = false ∧
    pathOfString (t.getD "") = "." ∧
    (∀ f : String, pathJoin (pathOfString (t.getD "")) f = f) := by
  have ht : t.getD "" = "" := by rcases h with h | h <;> simp [h]
  refine ⟨missingTemp_eq_false t, ?_, ?_⟩
  · rw [ht]; decide
  · intro f; rw [ht]; simp [pathJoin, pathOfString]

/-- C3, witness at the explicit empty-string temp value. -/
theorem C3_witness :
    missingTemp (some "") = false ∧
    pathJoin (pathOfString ((some "" : Option String).getD "")) "db_T.sql" = "db_T.sql" :=
  ⟨(C3_empty_temp_not_skipped (some "") (Or.inr rfl)).1,
   (C3_empty_temp_not_skipped (some "") (Or.inr rfl)).2.2 "db_T.sql"⟩

/-- C5.  When the encrypt stage fails — unsupported method (None returned
with no tool run), gpg exiting non-zero, or even the uncaught
FileNotFoundError — the file system is exactly as before: the input
artifact is unchanged and no new encrypted file exists. -/
theorem C5_encrypt_failure_frame (w : World) (st : SysState) (file : String)
    (ecfg : EncryptionCfg)
    (h : (Encryptor.encrypt w st file ecfg).2 = .ok none ∨
         ∃ e, (Encryptor.encrypt w st file ecfg).2 = .error e) :
    (Encryptor.encrypt w st file ecfg).1.fs = st.fs ∧
    ((file ++ ".gpg") ∉ st.fs → (file ++ ".gpg") ∉ (Encryptor.encrypt w st file ecfg).1.fs) := by
  have hfs : (Encryptor.encrypt w st file ecfg).1.fs = st.fs := by
    unfold Encryptor.encrypt
    split
    · rcases hE : w.gpg file with _ | ⟨c, o, e⟩
      · simp [hE]
      · rcases Nat.eq_zero_or_pos c with hc | hc
        · subst hc
          exfalso
          rcases h with h | ⟨e', h⟩ <;>
            simp [Encryptor.encrypt, hE] at h <;> simp_all
        · have hc0 : c ≠ 0 := Nat.pos_iff_ne_zero.mp hc
          simp [hE, hc0]
    · simp
  exact ⟨hfs, fun hn => by rw [hfs]; exact hn⟩

/-- C5, witness: gpg exits non-zero on a concrete state; the file system
is untouched. -/
theorem C5_witness :
    (Encryptor.encrypt exWorldBadGpg exSt "tmp/a.sql" exEnc).1.fs = exSt.fs :=
  (C5_encrypt_failure_frame exWorldBadGpg exSt "tmp/a.sql" exEnc (Or.inl (by decide))).1

/-- C7, counterexample.  With the prefix "/" configured (a truthy value,
so "a prefix is configured"), the upload succeeds and the remote key is
the bare file name "a.sql", not the claimed literal
prefix-slash-filename "//a.sql": the code strips slashes first. -/
theorem C7_counterexample :
    truthyStr exDestSlash.keyPfx = true ∧
    (Uploader.upload exWorldOk exSt "tmp/a.sql" exDestSlash).1.remote = [("b", "a.sql")] ∧
    (Uploader.upload exWorldOk exSt "tmp/a.sql" exDestSlash).2 = true ∧
    ("a.sql" : String) ≠ "/" ++ "/" ++ "a.sql" := by
  decide

/-- C7, amended.  For every destination and file, a successful s3 upload
records exactly one remote object whose key is the configured prefix
stripped of leading and trailing slashes joined to the file name when the
stripped prefix is non-empty, else the bare file name. -/
theorem C7_amended (w : World) (st : SysState) (file : String) (dcfg : DestinationCfg)
    (b : String) (hm : dcfg.method = some "s3") (hb : dcfg.s3Bucket = some b)
    (hs : w.s3Upload file = true) :
    (Uploader.upload w st file dcfg).1.remote
      = (b, specRemoteKey dcfg.keyPfx (fileName file)) :: st.remote ∧
    (Uploader.upload w st file dcfg).2 = true := by
  unfold Uploader.upload
  rw [hm, hb]
  simp only [if_pos rfl, hs]
  by_cases hc : stripSlashes (dcfg.keyPfx.getD "") = "" <;>
    simp [specRemoteKey, hc, hs]

/-- C7, witness: the amended key law evaluated at a concrete destination
with prefix "backups". -/
theorem C7_amended_witness :
    (Uploader.upload exWorldOk exSt "tmp/a.sql" exDest).1.remote
      = [("bkt", specRemoteKey exDest.keyPfx (fileName "tmp/a.sql"))] ∧
    (Uploader.upload exWorldOk exSt "tmp/a.sql" exDest).2 = true :=
  C7_amended exWorldOk exSt "tmp/a.sql" exDest "bkt" rfl rfl rfl

/-- Uploader.upload never touches the local file system. -/
lemma upload_fs (w : World) (st : SysState) (file : String) (dcfg : DestinationCfg) :
    (Uploader.upload w st file dcfg).1.fs = st.fs := by
  unfold Uploader.upload
  split
  · split
    · simp
    · split <;> simp
  · simp

/-- Uploader.upload reports success when the destination is a well-formed
s3 target and the transfer goes through. -/
lemma upload_success_snd (w : World) (st : SysState) (file : String) (dcfg : DestinationCfg)
    (b : String) (hm : dcfg.method = some "s3") (hb : dcfg.s3Bucket = some b)
    (hs : w.s3Upload file = true) :
    (Uploader.upload w st file dcfg).2 = true := by
  unfold Uploader.upload
  rw [hm, hb]
  simp [hs]

/-- C4.  When the encrypt stage is configured (truthy key resolving to a
gpg profile) and gpg succeeds: the stage itself never deletes its input
(the input is still on disk right after Encryptor.encrypt) and returns the
new sibling file; the pipeline block then deletes the predecessor, and the
encrypted file is the artifact it threads on (the encrypt block's result). -/
theorem C4_encrypt_ownership (w : World) (encs : List (String × EncryptionCfg))
    (key : Option String) (st : SysState) (file : String) (ecfg : EncryptionCfg)
    (hkey : truthyStr key = true)
    (hfind : lookupCfg encs (key.getD "") = some ecfg)
    (hmeth : ecfg.method = some "gpg")
    (hgpg : ∃ out err, w.gpg file = .exited 0 out err)
    (hin : file ∈ st.fs) :
    file ∈ (Encryptor.encrypt w st file ecfg).1.fs ∧
    (Encryptor.encrypt w st file ecfg).2 = .ok (some (file ++ ".gpg")) ∧
    (encryptStep w encs key st file).2 = .ok (some (file ++ ".gpg")) ∧
    file ∉ (encryptStep w encs key st file).1.fs ∧
    (file ++ ".gpg") ∈ (encryptStep w encs key st file).1.fs := by
  obtain ⟨out, err, hw⟩ := hgpg
  have hA : file ∈ (Encryptor.encrypt w st file ecfg).1.fs := by
    unfold Encryptor.encrypt
    rw [hmeth, if_pos rfl, hw]
    simp only [SysState.log_fs]
    exact SysState.mem_addFile_of_mem _ _ (by simpa using hin)
  have hN : (file ++ ".gpg") ∈ (Encryptor.encrypt w st file ecfg).1.fs := by
    unfold Encryptor.encrypt
    rw [hmeth, if_pos rfl, hw]
    simp only [SysState.log_fs]
    exact SysState.mem_addFile_self _ _
  have hR : (Encryptor.encrypt w st file ecfg).2 = .ok (some (file ++ ".gpg")) := by
    unfold Encryptor.encrypt
    rw [hmeth, if_pos rfl, hw]
    simp
  have hstep : encryptStep w encs key st file
      = ((Encryptor.encrypt w st file ecfg).1.rmFile file, .ok (some (file ++ ".gpg"))) := by
    unfold encryptStep
    rw [hkey, if_pos rfl, hfind]
    dsimp only
    rcases hE : Encryptor.encrypt w st file ecfg with ⟨st1, r1⟩
    rw [hE] at hR hA
    dsimp only at hR hA
    rw [hR]
    dsimp only
    rw [if_pos hA]
  refine ⟨hA, hR, by rw [hstep], ?_, ?_⟩
  · rw [hstep]
    simp [SysState.mem_rmFile]
  · rw [hstep]
    exact (SysState.mem_rmFile _).mpr ⟨hN, append_gpg_ne file⟩

/-- C4, witness at a concrete artifact and profile table. -/
theorem C4_witness :
    (Encryptor.encrypt exWorldOk exSt "tmp/a.sql" exEnc).2 = .ok (some "tmp/a.sql.gpg") ∧
    "tmp/a.sql" ∉
      (encryptStep exWorldOk exEncs (some "e1") (exSt.addFile "tmp/a.sql") "tmp/a.sql").1.fs := by
  have h := C4_encrypt_ownership exWorldOk exEncs (some "e1") (exSt.addFile "tmp/a.sql")
    "tmp/a.sql" exEnc (by decide) (by decide) (by decide)
    ⟨"", "", rfl⟩ (SysState.mem_addFile_self _ _)
  exact ⟨h.2.1, h.2.2.2.1⟩

/-- C6.  For a resolvable configured destination: a successful upload with
the cleanup flag true or absent deletes the local artifact; with cleanup
explicitly false it is preserved; a failed upload always preserves it. -/
theorem C6_upload_cleanup_policy (w : World) (dests : List (String × DestinationCfg))
    (destKey : Option String) (cleanup : Option Bool) (st : SysState) (file : String)
    (dcfg : DestinationCfg) (b : String)
    (hkey : truthyStr destKey = true)
    (hfind : lookupCfg dests (destKey.getD "") = some dcfg)
    (hin : file ∈ st.fs) :
    ((dcfg.method = some "s3" ∧ dcfg.s3Bucket = some b ∧ w.s3Upload file = true) →
      ((cleanup.getD true = true → file ∉ (uploadStep w dests destKey cleanup st file).fs) ∧
       (cleanup = some false → file ∈ (uploadStep w dests destKey cleanup st file).fs))) ∧
    ((Uploader.upload w st file dcfg).2 = false →
      file ∈ (uploadStep w dests destKey cleanup st file).fs) := by
  have hstep : uploadStep w dests destKey cleanup st file
      = (match Uploader.upload w st file dcfg with
         | (st, true) => if cleanup.getD true then st.rmFile file else st
         | (st, false) => st) := by
    unfold uploadStep
    rw [hkey, if_pos rfl, hfind]
  constructor
  · rintro ⟨hm, hb, hs⟩
    have hsucc := upload_success_snd w st file dcfg b hm hb hs
    rcases hU : Uploader.upload w st file dcfg with ⟨st1, b1⟩
    rw [hU] at hsucc
    subst hsucc
    have hfs1 : st1.fs = st.fs := by
      have := upload_fs w st file dcfg
      rw [hU] at this
      exact this
    rw [hstep, hU]
    constructor
    · intro hcl
      rw [hcl]
      simp [SysState.mem_rmFile]
    · intro hcl
      rw [hcl]
      simp only [Option.getD_some, if_neg Bool.false_ne_true]
      rw [hfs1]
      exact hin
  · intro hfail
    rcases hU : Uploader.upload w st file dcfg with ⟨st1, b1⟩
    rw [hU] at hfail
    subst hfail
    have hfs1 : st1.fs = st.fs := by
      have := upload_fs w st file dcfg
      rw [hU] at this
      exact this
    rw [hstep, hU]
    rw [hfs1]
    exact hin

/-- C6, witness: a successful upload with the cleanup flag absent deletes
the concrete artifact. -/
theorem C6_witness :
    "tmp/a.sql" ∉
      (uploadStep exWorldOk exDests (some "d1") none (exSt.addFile "tmp/a.sql") "tmp/a.sql").fs := by
  have h := C6_upload_cleanup_policy exWorldOk exDests (some "d1") none
    (exSt.addFile "tmp/a.sql") "tmp/a.sql" exDest "bkt" (by decide) (by decide)
    (SysState.mem_addFile_self _ _)
  exact (h.1 ⟨rfl, rfl, rfl⟩).1 rfl

/-- C8.  A database instance resolving to zero items — the dynamic listing
filtered by the exclusion set yielding nothing, or an absent or empty
explicit list — finishes normally with the matching error logged, touches
no files, executes no dump invocation, and the instance loop continues
with the remaining instances. -/
theorem C8_zero_items (w : World) (encs : List (String × EncryptionCfg))
    (dests : List (String × DestinationCfg)) (ts : String) (st : SysState)
    (name : String) (cfg : MySQLCfg)
    (h : (cfg.allDatabasesExceptSystem = true ∧ ∃ out err,
            w.showDatabases name = .exited 0 out err ∧
            filterDbLines out
              (if (cfg.excludeDatabases.getD []).isEmpty then systemDatabases
               else cfg.excludeDatabases.getD []) = [])
         ∨ (cfg.allDatabasesExceptSystem = false ∧ cfg.databases.getD [] = [])) :
    (MySQLDumpTask.runInstance w encs dests ts st name cfg).2 = .ok () ∧
    (MySQLDumpTask.runInstance w encs dests ts st name cfg).1.fs = st.fs ∧
    ((MySQLDumpTask.runInstance w encs dests ts st name cfg).1.invocations.filter
        (fun i => i.kind.isDump))
      = st.invocations.filter (fun i => i.kind.isDump) ∧
    ((MySQLDumpTask.runInstance w encs dests ts st name cfg).1.logs
        = ("ERROR, no databases found for source " ++ name) :: st.logs ∨
     (MySQLDumpTask.runInstance w encs dests ts st name cfg).1.logs
        = ("ERROR, no databases listed for source " ++ name) :: st.logs) ∧
    (∀ rest, MySQLDumpTask.run w encs dests ts st ((name, cfg) :: rest)
        = MySQLDumpTask.run w encs dests ts
            (MySQLDumpTask.runInstance w encs dests ts st name cfg).1 rest) := by
  have hmt := missingTemp_eq_false cfg.temp
  rcases h with ⟨hA, out, err, hout, hfil⟩ | ⟨hA, hdbs⟩
  · have hld : listDatabases w st name cfg
        (if (cfg.excludeDatabases.getD []).isEmpty then systemDatabases
         else cfg.excludeDatabases.getD [])
        = (st.record ⟨.listDbs, ["mysql"] ++ mysqlArgs cfg ++ ["-N", "-e", "SHOW DATABASES"],
             mysqlEnv st.env cfg⟩, .ok []) := by
      unfold listDatabases
      rw [hout]
      dsimp only
      rw [if_pos rfl, hfil]
    have hri : MySQLDumpTask.runInstance w encs dests ts st name cfg
        = ((st.record ⟨.listDbs, ["mysql"] ++ mysqlArgs cfg ++ ["-N", "-e", "SHOW DATABASES"],
              mysqlEnv st.env cfg⟩).log ("ERROR, no databases found for source " ++ name),
           .ok ()) := by
      unfold MySQLDumpTask.runInstance
      dsimp only
      rw [hmt, if_neg Bool.false_ne_true, hA, if_pos rfl, hld]
      dsimp only
      rw [List.isEmpty_nil, if_pos rfl]
    rw [hri]
    refine ⟨rfl, rfl, ?_, Or.inl rfl, ?_⟩
    · simp [InvKind.isDump]
    · intro rest
      simp [MySQLDumpTask.run, hri]
  · have hri : MySQLDumpTask.runInstance w encs dests ts st name cfg
        = (st.log ("ERROR, no databases listed for source " ++ name), .ok ()) := by
      unfold MySQLDumpTask.runInstance
      dsimp only
      rw [hmt, if_neg Bool.false_ne_true, hA, if_neg Bool.false_ne_true, hdbs,
        List.isEmpty_nil, if_pos rfl]
    rw [hri]
    refine ⟨rfl, rfl, rfl, Or.inr rfl, ?_⟩
    intro rest
    simp [MySQLDumpTask.run, hri]

/-- C8, witness: a concrete instance whose dynamic listing returns only
excluded system databases. -/
theorem C8_witness :
    (MySQLDumpTask.runInstance exWorldOk [] [] "T" exSt "i" exMySQLAll).2 = .ok () ∧
    ((MySQLDumpTask.runInstance exWorldOk [] [] "T" exSt "i" exMySQLAll).1.invocations.filter
        (fun i => i.kind.isDump)) = [] := by
  have h := C8_zero_items exWorldOk [] [] "T" exSt "i" exMySQLAll
    (Or.inl ⟨rfl, "mysql\nsys\n", "", rfl, by decide⟩)
  refine ⟨h.1, ?_⟩
  rw [h.2.2.1]
  rfl

/-- C9.  A directory instance with incremental mode on and no snapshot
path configured is a configuration failure: the instance run only logs the
error — no tool invocation is executed and no archive file is created —
and the instance loop continues with the remaining instances. -/
theorem C9_incremental_requires_snapshot (w : World)
    (encs : List (String × EncryptionCfg)) (dests : List (String × DestinationCfg))
    (ts : String) (st : SysState) (name : String) (cfg : DirCfg)
    (hdir : w.isDir (pathOfString (cfg.path.getD "")) = true)
    (hinc : cfg.incremental = true)
    (hsnap : truthyStr cfg.incrementalSnapshot = false) :
    (DirectoryBackupTask.runInstance w encs dests ts st name cfg).2 = .ok () ∧
    (DirectoryBackupTask.runInstance w encs dests ts st name cfg).1
      = st.log "ERROR, incremental requires incremental_snapshot" ∧
    (DirectoryBackupTask.runInstance w encs dests ts st name cfg).1.fs = st.fs ∧
    (DirectoryBackupTask.runInstance w encs dests ts st name cfg).1.invocations
      = st.invocations ∧
    (∀ rest, DirectoryBackupTask.run w encs dests ts st ((name, cfg) :: rest)
        = DirectoryBackupTask.run w encs dests ts
            (DirectoryBackupTask.runInstance w encs dests ts st name cfg).1 rest) := by
  have hmt := missingTemp_eq_false cfg.temp
  have htar : tarCmd cfg (pathOfString (cfg.path.getD ""))
      (pathJoin (pathOfString (cfg.temp.getD ""))
        (archiveName (fileName (pathOfString (cfg.path.getD ""))) ts cfg.compress))
      cfg.compress = none := by
    unfold tarCmd
    dsimp only
    rw [hinc, if_pos rfl, hsnap, if_neg Bool.false_ne_true]
  have hri : DirectoryBackupTask.runInstance w encs dests ts st name cfg
      = (st.log "ERROR, incremental requires incremental_snapshot", .ok ()) := by
    unfold DirectoryBackupTask.runInstance
    dsimp only
    rw [hdir, Bool.not_true, if_neg Bool.false_ne_true, hmt, if_neg Bool.false_ne_true, htar]
  rw [hri]
  refine ⟨rfl, rfl, rfl, rfl, ?_⟩
  intro rest
  simp [DirectoryBackupTask.run, hri]

/-- C9, witness at a concrete incremental instance without snapshot. -/
theorem C9_witness :
    (DirectoryBackupTask.runInstance exWorldOk [] [] "T" exSt "d" exDirInc).2 = .ok () ∧
    (DirectoryBackupTask.runInstance exWorldOk [] [] "T" exSt "d" exDirInc).1.invocations
      = exSt.invocations := by
  have h := C9_incremental_requires_snapshot exWorldOk [] [] "T" exSt "d" exDirInc
    rfl rfl rfl
  exact ⟨h.1, h.2.2.2.1⟩


lemma compress_ok (w : World) (st : SysState) (p m : String)
    (hg : w.gzip p ≠ .missing) (hb : w.bzip2 p ≠ .missing) :
    ∃ r, (Compressor.compress w st p m).2 = .ok r := by
  unfold Compressor.compress
  by_cases h1 : m = "gzip"
  · rw [if_pos h1]
    rcases hE : w.gzip p with _ | ⟨c, o, e⟩
    · exact absurd hE hg
    · dsimp only
      by_cases hc : c = 0
      · rw [if_pos hc]; exact ⟨_, rfl⟩
      · rw [if_neg hc]; exact ⟨_, rfl⟩
  · rw [if_neg h1]
    by_cases h2 : m = "bzip2"
    · rw [if_pos h2]
      rcases hE : w.bzip2 p with _ | ⟨c, o, e⟩
      · exact absurd hE hb
      · dsimp only
        by_cases hc : c = 0
        · rw [if_pos hc]; exact ⟨_, rfl⟩
        · rw [if_neg hc]; exact ⟨_, rfl⟩
    · rw [if_neg h2]
      exact ⟨_, rfl⟩

lemma compress_not_error (w : World) (st : SysState) (p m : String) (st' : SysState) (e : PyExn)
    (hg : w.gzip p ≠ .missing) (hb : w.bzip2 p ≠ .missing) :
    Compressor.compress w st p m ≠ (st', .error e) := by
  intro h
  obtain ⟨r, hr⟩ := compress_ok w st p m hg hb
  rw [h] at hr
  exact Except.noConfusion hr

lemma encrypt_ok (w : World) (st : SysState) (file : String) (ecfg : EncryptionCfg)
    (hgpg : w.gpg file ≠ .missing) :
    ∃ r, (Encryptor.encrypt w st file ecfg).2 = .ok r := by
  unfold Encryptor.encrypt
  by_cases hm : ecfg.method = some "gpg"
  · rw [if_pos hm]
    rcases hE : w.gpg file with _ | ⟨c, o, e⟩
    · exact absurd hE hgpg
    · dsimp only
      by_cases hc : c = 0
      · rw [if_pos hc]; exact ⟨_, rfl⟩
      · rw [if_neg hc]; exact ⟨_, rfl⟩
  · rw [if_neg hm]
    exact ⟨_, rfl⟩

lemma encryptStep_ok (w : World) (encs : List (String × EncryptionCfg))
    (key : Option String) (st : SysState) (file : String)
    (hgpg : w.gpg file ≠ .missing) :
    ∃ r, (encryptStep w encs key st file).2 = .ok r := by
  unfold encryptStep
  by_cases hk : truthyStr key = true
  · rw [if_pos hk]
    rcases hL : lookupCfg encs (key.getD "") with _ | ecfg
    · exact ⟨_, rfl⟩
    · dsimp only
      obtain ⟨r, hr⟩ := encrypt_ok w st file ecfg hgpg
      rcases hE : Encryptor.encrypt w st file ecfg with ⟨st1, r1⟩
      rw [hE] at hr
      dsimp only at hr
      subst hr
      rcases r with _ | f
      · exact ⟨_, rfl⟩
      · exact ⟨_, rfl⟩
  · rw [if_neg hk]
    exact ⟨_, rfl⟩

lemma afterExtract_ok (w : World) (encs : List (String × EncryptionCfg))
    (dests : List (String × DestinationCfg)) (ek dk : Option String) (cl : Option Bool)
    (st : SysState) (file : String) (hgpg : w.gpg file ≠ .missing) :
    (afterExtract w encs dests ek dk cl st file).2 = .ok () := by
  unfold afterExtract
  obtain ⟨r, hr⟩ := encryptStep_ok w encs ek st file hgpg
  rcases hE : encryptStep w encs ek st file with ⟨st1, r1⟩
  rw [hE] at hr
  dsimp only at hr
  subst hr
  rcases r with _ | f
  · rfl
  · rfl

lemma processDb_ok (w : World) (encs : List (String × EncryptionCfg))
    (dests : List (String × DestinationCfg)) (ts : String) (cfg : MySQLCfg)
    (tempDir : String) (st : SysState) (db : String)
    (hdump : w.dump db ≠ .missing)
    (hg : ∀ p, w.gzip p ≠ .missing) (hb : ∀ p, w.bzip2 p ≠ .missing)
    (hgpg : ∀ p, w.gpg p ≠ .missing) :
    (MySQLDumpTask.processDb w encs dests ts cfg tempDir st db).2 = .ok () := by
  unfold MySQLDumpTask.processDb
  dsimp only
  rcases hD : w.dump db with _ | ⟨c, o, e⟩
  · exact absurd hD hdump
  · dsimp only
    by_cases hc : c ≠ 0
    · rw [if_pos hc]
    · rw [if_neg hc]
      by_cases hcm : truthyStr cfg.compress = true
      · rw [if_pos hcm]
        split
        · next st1 e1 heq => exact absurd heq (compress_not_error _ _ _ _ _ _ (hg _) (hb _))
        · next st1 heq => rfl
        · next st1 f heq => exact afterExtract_ok _ _ _ _ _ _ _ _ (hgpg _)
      · rw [if_neg hcm]
        exact afterExtract_ok _ _ _ _ _ _ _ _ (hgpg _)

lemma runDbs_ok (w : World) (encs : List (String × EncryptionCfg))
    (dests : List (String × DestinationCfg)) (ts : String) (cfg : MySQLCfg)
    (tempDir : String)
    (hdump : ∀ s, w.dump s ≠ .missing)
    (hg : ∀ p, w.gzip p ≠ .missing) (hb : ∀ p, w.bzip2 p ≠ .missing)
    (hgpg : ∀ p, w.gpg p ≠ .missing) :
    ∀ (dbs : List String) (st : SysState),
      (MySQLDumpTask.runDbs w encs dests ts cfg tempDir st dbs).2 = .ok () := by
  intro dbs
  induction dbs with
  | nil => intro st; rfl
  | cons db rest ih =>
    intro st
    unfold MySQLDumpTask.runDbs
    have hok := processDb_ok w encs dests ts cfg tempDir st db (hdump db) hg hb hgpg
    rcases hP : MySQLDumpTask.processDb w encs dests ts cfg tempDir st db with ⟨st1, r1⟩
    rw [hP] at hok
    dsimp only at hok
    subst hok
    exact ih st1

lemma listDatabases_not_error (w : World) (st : SysState) (instName : String)
    (cfg : MySQLCfg) (exclude : List String) (st' : SysState) (e : PyExn)
    (hlist : w.showDatabases instName ≠ .missing) :
    listDatabases w st instName cfg exclude ≠ (st', .error e) := by
  intro h
  unfold listDatabases at h
  rcases hE : w.showDatabases instName with _ | ⟨c, o, er⟩
  · exact absurd hE hlist
  · rw [hE] at h
    dsimp only at h
    by_cases hc : c = 0
    · rw [if_pos hc] at h
      exact Except.noConfusion (congrArg Prod.snd h)
    · rw [if_neg hc] at h
      exact Except.noConfusion (congrArg Prod.snd h)

lemma mysqlRunInstance_ok (w : World) (encs : List (String × EncryptionCfg))
    (dests : List (String × DestinationCfg)) (ts : String) (st : SysState)
    (name : String) (cfg : MySQLCfg)
    (hlist : w.showDatabases name ≠ .missing)
    (hdump : ∀ s, w.dump s ≠ .missing)
    (hg : ∀ p, w.gzip p ≠ .missing) (hb : ∀ p, w.bzip2 p ≠ .missing)
    (hgpg : ∀ p, w.gpg p ≠ .missing) :
    (MySQLDumpTask.runInstance w encs dests ts st name cfg).2 = .ok () := by
  unfold MySQLDumpTask.runInstance
  dsimp only
  rw [missingTemp_eq_false, if_neg Bool.false_ne_true]
  by_cases hA : cfg.allDatabasesExceptSystem = true
  · rw [hA, if_pos rfl]
    split
    · next st1 e heq => exact absurd heq (listDatabases_not_error _ _ _ _ _ _ _ hlist)
    · next st1 dbs heq =>
      by_cases hd : dbs.isEmpty = true
      · rw [if_pos hd]
      · rw [if_neg hd]
        exact runDbs_ok w encs dests ts cfg _ hdump hg hb hgpg dbs st1
  · rw [if_neg hA]
    by_cases hd : (cfg.databases.getD []).isEmpty = true
    · rw [if_pos hd]
    · rw [if_neg hd]
      exact runDbs_ok w encs dests ts cfg _ hdump hg hb hgpg _ st

lemma mysqlRun_ok (w : World) (encs : List (String × EncryptionCfg))
    (dests : List (String × DestinationCfg)) (ts : String)
    (hlist : ∀ s, w.showDatabases s ≠ .missing)
    (hdump : ∀ s, w.dump s ≠ .missing)
    (hg : ∀ p, w.gzip p ≠ .missing) (hb : ∀ p, w.bzip2 p ≠ .missing)
    (hgpg : ∀ p, w.gpg p ≠ .missing) :
    ∀ (instances : List (String × MySQLCfg)) (st : SysState),
      (MySQLDumpTask.run w encs dests ts st instances).2 = .ok () := by
  intro instances
  induction instances with
  | nil => intro st; rfl
  | cons inst rest ih =>
    intro st
    rcases inst with ⟨name, cfg⟩
    unfold MySQLDumpTask.run
    have hok := mysqlRunInstance_ok w encs dests ts st name cfg (hlist name) hdump hg hb hgpg
    rcases hI : MySQLDumpTask.runInstance w encs dests ts st name cfg with ⟨st1, r1⟩
    rw [hI] at hok
    dsimp only at hok
    subst hok
    exact ih st1

lemma dirRunInstance_ok (w : World) (encs : List (String × EncryptionCfg))
    (dests : List (String × DestinationCfg)) (ts : String) (st : SysState)
    (name : String) (cfg : DirCfg)
    (htar : ∀ p, w.tar p ≠ .missing)
    (hgpg : ∀ p, w.gpg p ≠ .missing) :
    (DirectoryBackupTask.runInstance w encs dests ts st name cfg).2 = .ok () := by
  unfold DirectoryBackupTask.runInstance
  dsimp only
  by_cases hdir : (!w.isDir (pathOfString (cfg.path.getD ""))) = true
  · rw [if_pos hdir]
  · rw [if_neg hdir]
    rw [missingTemp_eq_false, if_neg Bool.false_ne_true]
    split
    · rfl
    · next cmd heq =>
      split
      · next htm => exact absurd htm (htar _)
      · next c o e htm =>
        by_cases hc : c ≠ 0
        · rw [if_pos hc]
        · rw [if_neg hc]
          exact afterExtract_ok _ _ _ _ _ _ _ _ (hgpg _)

lemma dirRun_ok (w : World) (encs : List (String × EncryptionCfg))
    (dests : List (String × DestinationCfg)) (ts : String)
    (htar : ∀ p, w.tar p ≠ .missing)
    (hgpg : ∀ p, w.gpg p ≠ .missing) :
    ∀ (instances : List (String × DirCfg)) (st : SysState),
      (DirectoryBackupTask.run w encs dests ts st instances).2 = .ok () := by
  intro instances
  induction instances with
  | nil => intro st; rfl
  | cons inst rest ih =>
    intro st
    rcases inst with ⟨name, cfg⟩
    unfold DirectoryBackupTask.run
    have hok := dirRunInstance_ok w encs dests ts st name cfg htar hgpg
    rcases hI : DirectoryBackupTask.runInstance w encs dests ts st name cfg with ⟨st1, r1⟩
    rw [hI] at hok
    dsimp only at hok
    subst hok
    exact ih st1

/-- C2, counterexample.  The claim covers any behaviour of the external
tool invocations including an absent tool binary, but when the mysqldump
binary is absent subprocess.run raises FileNotFoundError, which no except
clause on the dump path catches: the exception propagates out of run()
instead of being logged and skipped. -/
theorem C2_counterexample :
    (MySQLDumpTask.run exWorldNoDump [] [] "T" exSt [("i", exMySQLOne)]).2
      = .error .fileNotFoundError := by
  decide

/-- C2, amended.  Provided every invoked tool binary exists (each
invocation runs and signals failure through its exit status), no exception
propagates out of either run() method: stage failures are caught at the
stage boundary and the loops continue.  With an absent binary the
uncaught FileNotFoundError aborts run(), upload being the only stage
whose catch-all also covers that case. -/
theorem C2_amended (w : World) (h : w.noMissingTools)
    (encs : List (String × EncryptionCfg)) (dests : List (String × DestinationCfg))
    (ts : String) (mysqlInstances : List (String × MySQLCfg))
    (dirInstances : List (String × DirCfg)) (st1 st2 : SysState) :
    (MySQLDumpTask.run w encs dests ts st1 mysqlInstances).2 = .ok () ∧
    (DirectoryBackupTask.run w encs dests ts st2 dirInstances).2 = .ok () := by
  obtain ⟨hdump, hlist, hg, hb, hgpg, htar⟩ := h
  exact ⟨mysqlRun_ok w encs dests ts hlist hdump hg hb hgpg mysqlInstances st1,
         dirRun_ok w encs dests ts htar hgpg dirInstances st2⟩

/-- C2, witness: a concrete all-tools-present world, with both tasks run
on concrete instances. -/
theorem C2_witness :
    exWorldOk.noMissingTools ∧
    (MySQLDumpTask.run exWorldOk exEncs exDests "T" exSt [("i", exMySQLOne)]).2 = .ok () ∧
    (DirectoryBackupTask.run exWorldOk exEncs exDests "T" exSt [("d", exDirXz)]).2 = .ok () := by
  have hw : exWorldOk.noMissingTools := by
    refine ⟨?_, ?_, ?_, ?_, ?_, ?_⟩ <;> intro s <;> exact fun hc => ProcOutcome.noConfusion hc
  exact ⟨hw,
    (C2_amended exWorldOk hw exEncs exDests "T" [("i", exMySQLOne)] [("d", exDirXz)] exSt exSt).1,
    (C2_amended exWorldOk hw exEncs exDests "T" [("i", exMySQLOne)] [("d", exDirXz)] exSt exSt).2⟩


lemma compress_env (w : World) (st : SysState) (p m : String) :
    (Compressor.compress w st p m).1.env = st.env := by
  unfold Compressor.compress
  repeat' split
  all_goals simp

lemma compress_env_of (w : World) (st : SysState) (p m : String) (st' : SysState)
    (r : Except PyExn (Option String)) (h : Compressor.compress w st p m = (st', r)) :
    st'.env = st.env := by
  have hh := compress_env w st p m
  rw [h] at hh
  exact hh

lemma compress_invs (w : World) (st : SysState) (p m : String) :
    ∀ i ∈ (Compressor.compress w st p m).1.invocations,
      i ∈ st.invocations ∨ i.kind.isDumpOrList = false := by
  unfold Compressor.compress
  repeat' split
  all_goals intro i hi
  all_goals (try simp at hi)
  all_goals first
    | exact Or.inl hi
    | (rcases hi with rfl | hi
       · exact Or.inr rfl
       · exact Or.inl hi)

lemma compress_invs_of (w : World) (st : SysState) (p m : String) (st' : SysState)
    (r : Except PyExn (Option String)) (h : Compressor.compress w st p m = (st', r)) :
    ∀ i ∈ st'.invocations, i ∈ st.invocations ∨ i.kind.isDumpOrList = false := by
  have hh := compress_invs w st p m
  rw [h] at hh
  exact hh

lemma encrypt_env (w : World) (st : SysState) (file : String) (ecfg : EncryptionCfg) :
    (Encryptor.encrypt w st file ecfg).1.env = st.env := by
  unfold Encryptor.encrypt
  repeat' split
  all_goals simp

lemma encrypt_invs (w : World) (st : SysState) (file : String) (ecfg : EncryptionCfg) :
    ∀ i ∈ (Encryptor.encrypt w st file ecfg).1.invocations,
      i ∈ st.invocations ∨ i.kind.isDumpOrList = false := by
  unfold Encryptor.encrypt
  repeat' split
  all_goals intro i hi
  all_goals (try simp at hi)
  all_goals first
    | exact Or.inl hi
    | (rcases hi with rfl | hi
       · exact Or.inr rfl
       · exact Or.inl hi)

lemma upload_env (w : World) (st : SysState) (file : String) (dcfg : DestinationCfg) :
    (Uploader.upload w st file dcfg).1.env = st.env := by
  unfold Uploader.upload
  repeat' split
  all_goals simp

lemma upload_invocations (w : World) (st : SysState) (file : String) (dcfg : DestinationCfg) :
    (Uploader.upload w st file dcfg).1.invocations = st.invocations := by
  unfold Uploader.upload
  repeat' split
  all_goals simp

lemma encryptStep_env (w : World) (encs : List (String × EncryptionCfg)) (key : Option String)
    (st : SysState) (file : String) :
    (encryptStep w encs key st file).1.env = st.env := by
  unfold encryptStep
  by_cases hk : truthyStr key = true
  · rw [if_pos hk]
    rcases hL : lookupCfg encs (key.getD "") with _ | ecfg
    · simp
    · dsimp only
      have h := encrypt_env w st file ecfg
      rcases hE : Encryptor.encrypt w st file ecfg with ⟨st1, r1⟩
      rw [hE] at h
      dsimp only at h
      rcases r1 with e | r1
      · exact h
      · rcases r1 with _ | f
        · exact h
        · dsimp only
          split
          · simpa using h
          · exact h
  · rw [if_neg hk]

lemma encryptStep_invs (w : World) (encs : List (String × EncryptionCfg)) (key : Option String)
    (st : SysState) (file : String) :
    ∀ i ∈ (encryptStep w encs key st file).1.invocations,
      i ∈ st.invocations ∨ i.kind.isDumpOrList = false := by
  unfold encryptStep
  by_cases hk : truthyStr key = true
  · rw [if_pos hk]
    rcases hL : lookupCfg encs (key.getD "") with _ | ecfg
    · intro i hi
      exact Or.inl (by simpa using hi)
    · dsimp only
      have h := encrypt_invs w st file ecfg
      rcases hE : Encryptor.encrypt w st file ecfg with ⟨st1, r1⟩
      rw [hE] at h
      dsimp only at h
      rcases r1 with e | r1
      · exact h
      · rcases r1 with _ | f
        · exact h
        · dsimp only
          split
          · intro i hi
            exact h i (by simpa using hi)
          · exact h
  · rw [if_neg hk]
    intro i hi
    exact Or.inl hi

lemma uploadStep_invocations (w : World) (dests : List (String × DestinationCfg))
    (destKey : Option String) (cleanup : Option Bool) (st : SysState) (file : String) :
    (uploadStep w dests destKey cleanup st file).invocations = st.invocations := by
  unfold uploadStep
  by_cases hk : truthyStr destKey = true
  · rw [if_pos hk]
    rcases hL : lookupCfg dests (destKey.getD "") with _ | dcfg
    · simp
    · dsimp only
      have h := upload_invocations w st file dcfg
      rcases hU : Uploader.upload w st file dcfg with ⟨st1, b1⟩
      rw [hU] at h
      dsimp only at h
      rcases b1
      · exact h
      · dsimp only
        split
        · simpa using h
        · exact h
  · rw [if_neg hk]
    simp

lemma uploadStep_env (w : World) (dests : List (String × DestinationCfg))
    (destKey : Option String) (cleanup : Option Bool) (st : SysState) (file : String) :
    (uploadStep w dests destKey cleanup st file).env = st.env := by
  unfold uploadStep
  by_cases hk : truthyStr destKey = true
  · rw [if_pos hk]
    rcases hL : lookupCfg dests (destKey.getD "") with _ | dcfg
    · simp
    · dsimp only
      have h := upload_env w st file dcfg
      rcases hU : Uploader.upload w st file dcfg with ⟨st1, b1⟩
      rw [hU] at h
      dsimp only at h
      rcases b1
      · exact h
      · dsimp only
        split
        · simpa using h
        · exact h
  · rw [if_neg hk]
    simp

lemma afterExtract_env (w : World) (encs : List (String × EncryptionCfg))
    (dests : List (String × DestinationCfg)) (ek dk : Option String) (cl : Option Bool)
    (st : SysState) (file : String) :
    (afterExtract w encs dests ek dk cl st file).1.env = st.env := by
  unfold afterExtract
  have h := encryptStep_env w encs ek st file
  rcases hE : encryptStep w encs ek st file with ⟨st1, r1⟩
  rw [hE] at h
  dsimp only at h
  rcases r1 with e | r1
  · exact h
  · rcases r1 with _ | f
    · exact h
    · dsimp only
      rw [uploadStep_env]
      exact h

lemma afterExtract_invs (w : World) (encs : List (String × EncryptionCfg))
    (dests : List (String × DestinationCfg)) (ek dk : Option String) (cl : Option Bool)
    (st : SysState) (file : String) :
    ∀ i ∈ (afterExtract w encs dests ek dk cl st file).1.invocations,
      i ∈ st.invocations ∨ i.kind.isDumpOrList = false := by
  unfold afterExtract
  have h := encryptStep_invs w encs ek st file
  rcases hE : encryptStep w encs ek st file with ⟨st1, r1⟩
  rw [hE] at h
  dsimp only at h
  rcases r1 with e | r1
  · exact h
  · rcases r1 with _ | f
    · exact h
    · dsimp only
      intro i hi
      rw [uploadStep_invocations] at hi
      exact h i hi

lemma listDatabases_env (w : World) (st : SysState) (instName : String) (cfg : MySQLCfg)
    (exclude : List String) :
    (listDatabases w st instName cfg exclude).1.env = st.env := by
  unfold listDatabases
  repeat' split
  all_goals simp

lemma listDatabases_env_of (w : World) (st : SysState) (instName : String) (cfg : MySQLCfg)
    (exclude : List String) (st' : SysState) (r : Except PyExn (List String))
    (h : listDatabases w st instName cfg exclude = (st', r)) : st'.env = st.env := by
  have hh := listDatabases_env w st instName cfg exclude
  rw [h] at hh
  exact hh

lemma listDatabases_invs (w : World) (st : SysState) (instName : String) (cfg : MySQLCfg)
    (exclude : List String) :
    ∀ i ∈ (listDatabases w st instName cfg exclude).1.invocations,
      i ∈ st.invocations ∨
        (i.kind.isDumpOrList = true → i.env = mysqlEnv st.env cfg) := by
  unfold listDatabases
  rcases hE : w.showDatabases instName with _ | ⟨c, o, e⟩
  · intro i hi
    exact Or.inl hi
  · dsimp only
    by_cases hc : c = 0
    · rw [if_pos hc]
      intro i hi
      simp at hi
      rcases hi with rfl | hi
      · exact Or.inr (fun _ => rfl)
      · exact Or.inl hi
    · rw [if_neg hc]
      intro i hi
      simp at hi
      rcases hi with rfl | hi
      · exact Or.inr (fun _ => rfl)
      · exact Or.inl hi

lemma listDatabases_invs_of (w : World) (st : SysState) (instName : String) (cfg : MySQLCfg)
    (exclude : List String) (st' : SysState) (r : Except PyExn (List String))
    (h : listDatabases w st instName cfg exclude = (st', r)) :
    ∀ i ∈ st'.invocations,
      i ∈ st.invocations ∨
        (i.kind.isDumpOrList = true → i.env = mysqlEnv st.env cfg) := by
  have hh := listDatabases_invs w st instName cfg exclude
  rw [h] at hh
  exact hh

lemma processDb_env (w : World) (encs : List (String × EncryptionCfg))
    (dests : List (String × DestinationCfg)) (ts : String) (cfg : MySQLCfg)
    (tempDir : String) (st : SysState) (db : String) :
    (MySQLDumpTask.processDb w encs dests ts cfg tempDir st db).1.env = st.env := by
  unfold MySQLDumpTask.processDb
  dsimp only
  rcases hD : w.dump db with _ | ⟨c, o, e⟩
  · simp
  · dsimp only
    by_cases hc : c ≠ 0
    · rw [if_pos hc]
      simp
    · rw [if_neg hc]
      by_cases hcm : truthyStr cfg.compress = true
      · rw [if_pos hcm]
        split
        · next st1 e1 heq =>
          have h := compress_env_of _ _ _ _ _ _ heq
          simpa using h
        · next st1 heq =>
          have h := compress_env_of _ _ _ _ _ _ heq
          simpa using h
        · next st1 f heq =>
          have h := compress_env_of _ _ _ _ _ _ heq
          rw [afterExtract_env]
          simpa using h
      · rw [if_neg hcm]
        rw [afterExtract_env]
        simp

lemma processDb_env_of (w : World) (encs : List (String × EncryptionCfg))
    (dests : List (String × DestinationCfg)) (ts : String) (cfg : MySQLCfg)
    (tempDir : String) (st : SysState) (db : String) (st' : SysState)
    (r : Except PyExn Unit)
    (h : MySQLDumpTask.processDb w encs dests ts cfg tempDir st db = (st', r)) :
    st'.env = st.env := by
  have hh := processDb_env w encs dests ts cfg tempDir st db
  rw [h] at hh
  exact hh

lemma processDb_invs (w : World) (encs : List (String × EncryptionCfg))
    (dests : List (String × DestinationCfg)) (ts : String) (cfg : MySQLCfg)
    (tempDir : String) (st : SysState) (db : String) :
    ∀ i ∈ (MySQLDumpTask.processDb w encs dests ts cfg tempDir st db).1.invocations,
      i ∈ st.invocations ∨
        (i.kind.isDumpOrList = true → i.env = mysqlEnv st.env cfg) := by
  unfold MySQLDumpTask.processDb
  dsimp only
  rcases hD : w.dump db with _ | ⟨c, o, e⟩
  · intro i hi
    exact Or.inl (by simpa using hi)
  · dsimp only
    by_cases hc : c ≠ 0
    · rw [if_pos hc]
      intro i hi
      simp at hi
      rcases hi with rfl | hi
      · exact Or.inr (fun _ => by simp)
      · exact Or.inl hi
    · rw [if_neg hc]
      by_cases hcm : truthyStr cfg.compress = true
      · rw [if_pos hcm]
        split
        · next st1 e1 heq =>
          intro i hi
          rcases compress_invs_of _ _ _ _ _ _ heq i hi with h1 | h1
          · simp at h1
            rcases h1 with rfl | h1
            · exact Or.inr (fun _ => by simp)
            · exact Or.inl h1
          · exact Or.inr (fun hk => absurd hk (by rw [h1]; exact Bool.false_ne_true))
        · next st1 heq =>
          intro i hi
          rcases compress_invs_of _ _ _ _ _ _ heq i hi with h1 | h1
          · simp at h1
            rcases h1 with rfl | h1
            · exact Or.inr (fun _ => by simp)
            · exact Or.inl h1
          · exact Or.inr (fun hk => absurd hk (by rw [h1]; exact Bool.false_ne_true))
        · next st1 f heq =>
          intro i hi
          rcases afterExtract_invs w encs dests cfg.encryption cfg.destination cfg.cleanup
              st1 f i hi with h1 | h1
          · rcases compress_invs_of _ _ _ _ _ _ heq i h1 with h2 | h2
            · simp at h2
              rcases h2 with rfl | h2
              · exact Or.inr (fun _ => by simp)
              · exact Or.inl h2
            · exact Or.inr (fun hk => absurd hk (by rw [h2]; exact Bool.false_ne_true))
          · exact Or.inr (fun hk => absurd hk (by rw [h1]; exact Bool.false_ne_true))
      · rw [if_neg hcm]
        intro i hi
        rcases afterExtract_invs w encs dests cfg.encryption cfg.destination cfg.cleanup
            _ _ i hi with h1 | h1
        · simp at h1
          rcases h1 with rfl | h1
          · exact Or.inr (fun _ => by simp)
          · exact Or.inl h1
        · exact Or.inr (fun hk => absurd hk (by rw [h1]; exact Bool.false_ne_true))

lemma processDb_invs_of (w : World) (encs : List (String × EncryptionCfg))
    (dests : List (String × DestinationCfg)) (ts : String) (cfg : MySQLCfg)
    (tempDir : String) (st : SysState) (db : String) (st' : SysState)
    (r : Except PyExn Unit)
    (h : MySQLDumpTask.processDb w encs dests ts cfg tempDir st db = (st', r)) :
    ∀ i ∈ st'.invocations,
      i ∈ st.invocations ∨
        (i.kind.isDumpOrList = true → i.env = mysqlEnv st.env cfg) := by
  have hh := processDb_invs w encs dests ts cfg tempDir st db
  rw [h] at hh
  exact hh

lemma runDbs_env (w : World) (encs : List (String × EncryptionCfg))
    (dests : List (String × DestinationCfg)) (ts : String) (cfg : MySQLCfg)
    (tempDir : String) :
    ∀ (dbs : List String) (st : SysState),
      (MySQLDumpTask.runDbs w encs dests ts cfg tempDir st dbs).1.env = st.env := by
  intro dbs
  induction dbs with
  | nil => intro st; rfl
  | cons db rest ih =>
    intro st
    unfold MySQLDumpTask.runDbs
    rcases hP : MySQLDumpTask.processDb w encs dests ts cfg tempDir st db with ⟨st1, r1⟩
    have he := processDb_env_of _ _ _ _ _ _ _ _ _ _ hP
    rcases r1 with e | r1
    · exact he
    · dsimp only
      rw [ih st1]
      exact he

lemma runDbs_invs (w : World) (encs : List (String × EncryptionCfg))
    (dests : List (String × DestinationCfg)) (ts : String) (cfg : MySQLCfg)
    (tempDir : String) :
    ∀ (dbs : List String) (st : SysState),
      ∀ i ∈ (MySQLDumpTask.runDbs w encs dests ts cfg tempDir st dbs).1.invocations,
        i ∈ st.invocations ∨
          (i.kind.isDumpOrList = true → i.env = mysqlEnv st.env cfg) := by
  intro dbs
  induction dbs with
  | nil => intro st i hi; exact Or.inl hi
  | cons db rest ih =>
    intro st i hi
    unfold MySQLDumpTask.runDbs at hi
    rcases hP : MySQLDumpTask.processDb w encs dests ts cfg tempDir st db with ⟨st1, r1⟩
    rw [hP] at hi
    rcases r1 with e | r1
    · dsimp only at hi
      exact processDb_invs_of _ _ _ _ _ _ _ _ _ _ hP i hi
    · dsimp only at hi
      rcases ih st1 i hi with h1 | h1
      · exact processDb_invs_of _ _ _ _ _ _ _ _ _ _ hP i h1
      · right
        intro hk
        rw [h1 hk, processDb_env_of _ _ _ _ _ _ _ _ _ _ hP]

lemma mysqlRunInstance_env (w : World) (encs : List (String × EncryptionCfg))
    (dests : List (String × DestinationCfg)) (ts : String) (st : SysState)
    (name : String) (cfg : MySQLCfg) :
    (MySQLDumpTask.runInstance w encs dests ts st name cfg).1.env = st.env := by
  unfold MySQLDumpTask.runInstance
  dsimp only
  rw [missingTemp_eq_false, if_neg Bool.false_ne_true]
  by_cases hA : cfg.allDatabasesExceptSystem = true
  · rw [hA, if_pos rfl]
    split
    · next st1 e heq => exact listDatabases_env_of _ _ _ _ _ _ _ heq
    · next st1 dbs heq =>
      by_cases hd : dbs.isEmpty = true
      · rw [if_pos hd]
        have h := listDatabases_env_of _ _ _ _ _ _ _ heq
        simpa using h
      · rw [if_neg hd]
        rw [runDbs_env]
        exact listDatabases_env_of _ _ _ _ _ _ _ heq
  · rw [if_neg hA]
    by_cases hd : (cfg.databases.getD []).isEmpty = true
    · rw [if_pos hd]
      simp
    · rw [if_neg hd]
      rw [runDbs_env]

lemma mysqlRunInstance_invs (w : World) (encs : List (String × EncryptionCfg))
    (dests : List (String × DestinationCfg)) (ts : String) (st : SysState)
    (name : String) (cfg : MySQLCfg) :
    ∀ i ∈ (MySQLDumpTask.runInstance w encs dests ts st name cfg).1.invocations,
      i ∈ st.invocations ∨
        (i.kind.isDumpOrList = true → i.env = mysqlEnv st.env cfg) := by
  unfold MySQLDumpTask.runInstance
  dsimp only
  rw [missingTemp_eq_false, if_neg Bool.false_ne_true]
  by_cases hA : cfg.allDatabasesExceptSystem = true
  · rw [hA, if_pos rfl]
    split
    · next st1 e heq =>
      intro i hi
      exact listDatabases_invs_of _ _ _ _ _ _ _ heq i hi
    · next st1 dbs heq =>
      by_cases hd : dbs.isEmpty = true
      · rw [if_pos hd]
        intro i hi
        exact listDatabases_invs_of _ _ _ _ _ _ _ heq i (by simpa using hi)
      · rw [if_neg hd]
        intro i hi
        rcases runDbs_invs w encs dests ts cfg _ dbs st1 i hi with h1 | h1
        · exact listDatabases_invs_of _ _ _ _ _ _ _ heq i h1
        · right
          intro hk
          rw [h1 hk, listDatabases_env_of _ _ _ _ _ _ _ heq]
  · rw [if_neg hA]
    by_cases hd : (cfg.databases.getD []).isEmpty = true
    · rw [if_pos hd]
      intro i hi
      exact Or.inl (by simpa using hi)
    · rw [if_neg hd]
      intro i hi
      exact runDbs_invs w encs dests ts cfg _ _ st i hi

lemma mysqlRun_env (w : World) (encs : List (String × EncryptionCfg))
    (dests : List (String × DestinationCfg)) (ts : String) :
    ∀ (instances : List (String × MySQLCfg)) (st : SysState),
      (MySQLDumpTask.run w encs dests ts st instances).1.env = st.env := by
  intro instances
  induction instances with
  | nil => intro st; rfl
  | cons inst rest ih =>
    intro st
    rcases inst with ⟨name, cfg⟩
    unfold MySQLDumpTask.run
    rcases hI : MySQLDumpTask.runInstance w encs dests ts st name cfg with ⟨st1, r1⟩
    have he := mysqlRunInstance_env w encs dests ts st name cfg
    rw [hI] at he
    dsimp only at he
    rcases r1 with e | r1
    · exact he
    · dsimp only
      rw [ih st1]
      exact he

/-- C10.  For a database instance with a (truthy) configured password:
running the task leaves the global process environment unchanged, and
every executed dump or database-listing invocation of the instance
received, as its own environment, the copy of the global environment
extended with MYSQL_PWD set to the password. -/
theorem C10_password_env_isolation (w : World) (encs : List (String × EncryptionCfg))
    (dests : List (String × DestinationCfg)) (ts : String) (st : SysState)
    (name : String) (cfg : MySQLCfg) (p : String)
    (instances : List (String × MySQLCfg))
    (hp : cfg.password = some p) (hne : p ≠ "") :
    (MySQLDumpTask.run w encs dests ts st instances).1.env = st.env ∧
    (∀ i ∈ (MySQLDumpTask.runInstance w encs dests ts st name cfg).1.invocations,
      i ∉ st.invocations → i.kind.isDumpOrList = true →
      i.env = envSet st.env "MYSQL_PWD" p) := by
  have hmeq : mysqlEnv st.env cfg = envSet st.env "MYSQL_PWD" p := by
    unfold mysqlEnv
    rw [hp]
    simp [truthyStr, bne_iff_ne, hne]
  refine ⟨mysqlRun_env w encs dests ts instances st, ?_⟩
  intro i hi hnew hk
  rcases mysqlRunInstance_invs w encs dests ts st name cfg i hi with h1 | h1
  · exact absurd h1 hnew
  · rw [h1 hk, hmeq]

/-- C10, witness: a concrete instance with password "sec"; the run
leaves the environment unchanged and the recorded listing invocation
carries the extended environment. -/
theorem C10_witness :
    (MySQLDumpTask.run exWorldOk [] [] "T" exSt [("i", exMySQLPwd)]).1.env = exSt.env ∧
    (Invocation.mk .listDbs ["mysql", "-N", "-e", "SHOW DATABASES"]
        (envSet exSt.env "MYSQL_PWD" "sec")).env = envSet exSt.env "MYSQL_PWD" "sec" := by
  have h := C10_password_env_isolation exWorldOk [] [] "T" exSt "i" exMySQLPwd "sec"
    [("i", exMySQLPwd)] rfl (by decide)
  exact ⟨h.1, h.2 _ (by decide) (by decide) rfl⟩

end BackupPy
